import Mathlib

/-!
# Verification of `swc_event_lookup.py`

A shallow embedding of the SWC event-lookup utility, together with proofs
about its components:

* the proleptic-Gregorian calendar arithmetic underlying `time.strptime`,
  `time.mktime`, `time.localtime` and `time.strftime` (the local timezone is
  modelled as a fixed UTC offset `tz`, with no daylight-saving transitions);
* `timestamp_range`, `create_params` and the four driver scenarios;
* the key loader, the event loader and `query_service` as functions from the
  outcome of their environment interactions (file reads, HTTP exchange) to
  the observable result of the call (returned value, process exit with a
  message, or an uncaught Python exception);
* the driver's stable descending sort of session records.
-/

namespace Swc

/-! ## Civil (proleptic Gregorian) calendar

`daysFromCivil` is the standard closed form for the number of days between a
civil date and 1970-01-01, as computed by C `mktime` after normalisation:
years are shifted so the leap day ends a "March-to-February" year, within an
era of 400 years (146097 days).  `civilFromDays` is its inverse.  Both
functions follow the usual era/year-of-era/day-of-year decomposition; the
year-of-era is recovered from the day-of-era by a guess (dividing by 366)
followed by a single correction step. -/

/-- First day-of-era of a year-of-era (`0 ≤ yoe ≤ 400`). -/
def yoeStart (yoe : Int) : Int := 365 * yoe + yoe / 4 - yoe / 100 + yoe / 400

/-- Days since 1970-01-01 of a civil date.  The date need not be normalised:
out-of-range `d` (such as February 31) simply counts on past the end of the
month, exactly as `time.mktime` normalises out-of-range fields. -/
def daysFromCivil (y m d : Int) : Int :=
  let y' := if m ≤ 2 then y - 1 else y
  let era := y' / 400
  let yoe := y' - era * 400
  let mp := if 2 < m then m - 3 else m + 9
  let doy := (153 * mp + 2) / 5 + (d - 1)
  era * 146097 + (yoeStart yoe + doy) - 719468

/-- Era (400-year block) of a day count, via floor division by 146097. -/
def eraOfDays (z : Int) : Int := (z + 719468) / 146097

/-- Day-of-era (`0 ≤ doe ≤ 146096`) of a day count. -/
def doeOfDays (z : Int) : Int := z + 719468 - eraOfDays z * 146097

/-- Year-of-era containing a day-of-era: a guess by dividing by 366 and one
correction step. -/
def yoeOfDoe (doe : Int) : Int :=
  let g := doe / 366
  if yoeStart (g + 1) ≤ doe then g + 1 else g

/-- March-based month index (`0` = March, …, `11` = February) from a
day-of-year of the March-to-February year. -/
def mpOfDoy (doy : Int) : Int := (5 * doy + 2) / 153

/-- Civil month (1–12) from the March-based month index. -/
def monthOfMp (mp : Int) : Int := if mp < 10 then mp + 3 else mp - 9

/-- Civil date `(year, month, day)` from days since 1970-01-01. -/
def civilFromDays (z : Int) : Int × Int × Int :=
  let era := eraOfDays z
  let doe := doeOfDays z
  let yoe := yoeOfDoe doe
  let doy := doe - yoeStart yoe
  let mp := mpOfDoy doy
  let m := monthOfMp mp
  (era * 400 + yoe + (if m ≤ 2 then 1 else 0), m, doy - (153 * mp + 2) / 5 + 1)

theorem doeOfDays_nonneg (z : Int) : 0 ≤ doeOfDays z := by
  unfold doeOfDays eraOfDays
  omega

theorem doeOfDays_le (z : Int) : doeOfDays z ≤ 146096 := by
  unfold doeOfDays eraOfDays
  omega

theorem eraOfDays_spec (z : Int) : eraOfDays z * 146097 + doeOfDays z = z + 719468 := by
  unfold doeOfDays
  omega

theorem yoeOfDoe_bounds (doe : Int) (h0 : 0 ≤ doe) (h1 : doe ≤ 146096) :
    0 ≤ yoeOfDoe doe ∧ yoeOfDoe doe ≤ 399 ∧
    yoeStart (yoeOfDoe doe) ≤ doe ∧ doe - yoeStart (yoeOfDoe doe) ≤ 365 := by
  have e4 : (doe / 366 + 1) / 4 - doe / 366 / 4 = if doe / 366 % 4 = 3 then 1 else 0 := by
    split_ifs <;> omega
  have e100 : (doe / 366 + 1) / 100 - doe / 366 / 100 =
      if doe / 366 % 100 = 99 then 1 else 0 := by
    split_ifs <;> omega
  have e400 : (doe / 366 + 1) / 400 - doe / 366 / 400 =
      if doe / 366 % 400 = 399 then 1 else 0 := by
    split_ifs <;> omega
  unfold yoeOfDoe yoeStart
  dsimp only
  split_ifs at e4 e100 e400 ⊢ <;> omega

theorem mpOfDoy_bounds (doy : Int) (h0 : 0 ≤ doy) (h1 : doy ≤ 365) :
    0 ≤ mpOfDoy doy ∧ mpOfDoy doy ≤ 11 ∧
    (153 * mpOfDoy doy + 2) / 5 ≤ doy ∧
    doy - (153 * mpOfDoy doy + 2) / 5 ≤ 30 := by
  unfold mpOfDoy
  omega

/-- Recomposition: `daysFromCivil` applied to the year/month/day produced
from an era, an in-range year-of-era and an in-range March-based month index
recovers the corresponding day count. -/
theorem daysFromCivil_recompose (era yoe mp d : Int)
    (hy0 : 0 ≤ yoe) (hy1 : yoe ≤ 399) (hm0 : 0 ≤ mp) (hm1 : mp ≤ 11) :
    daysFromCivil (era * 400 + yoe + (if monthOfMp mp ≤ 2 then 1 else 0)) (monthOfMp mp) d =
      era * 146097 + (yoeStart yoe + ((153 * mp + 2) / 5 + (d - 1))) - 719468 := by
  unfold daysFromCivil monthOfMp yoeStart
  have h4 : yoe / 400 = 0 := by omega
  dsimp only
  split_ifs <;> omega

/-- The calendar round trip: decomposing a day count into a civil date and
recomposing it is the identity. -/
theorem daysFromCivil_civilFromDays (z : Int) :
    daysFromCivil (civilFromDays z).1 (civilFromDays z).2.1 (civilFromDays z).2.2 = z := by
  have hdoe0 := doeOfDays_nonneg z
  have hdoe1 := doeOfDays_le z
  have hera := eraOfDays_spec z
  obtain ⟨hy0, hy1, hs0, hs1⟩ := yoeOfDoe_bounds (doeOfDays z) hdoe0 hdoe1
  obtain ⟨hm0, hm1, hp0, hp1⟩ :=
    mpOfDoy_bounds (doeOfDays z - yoeStart (yoeOfDoe (doeOfDays z))) (by omega) (by omega)
  have hrec := daysFromCivil_recompose (eraOfDays z) (yoeOfDoe (doeOfDays z))
    (mpOfDoy (doeOfDays z - yoeStart (yoeOfDoe (doeOfDays z))))
    ((doeOfDays z - yoeStart (yoeOfDoe (doeOfDays z))) -
      (153 * mpOfDoy (doeOfDays z - yoeStart (yoeOfDoe (doeOfDays z))) + 2) / 5 + 1)
    hy0 hy1 hm0 hm1
  unfold civilFromDays
  dsimp only
  rw [hrec]
  omega

theorem civilFromDays_month_mday_bounds (z : Int) :
    1 ≤ (civilFromDays z).2.1 ∧ (civilFromDays z).2.1 ≤ 12 ∧
    1 ≤ (civilFromDays z).2.2 ∧ (civilFromDays z).2.2 ≤ 31 := by
  have hdoe0 := doeOfDays_nonneg z
  have hdoe1 := doeOfDays_le z
  obtain ⟨hy0, hy1, hs0, hs1⟩ := yoeOfDoe_bounds (doeOfDays z) hdoe0 hdoe1
  obtain ⟨hm0, hm1, hp0, hp1⟩ :=
    mpOfDoy_bounds (doeOfDays z - yoeStart (yoeOfDoe (doeOfDays z))) (by omega) (by omega)
  unfold civilFromDays monthOfMp
  dsimp only
  split_ifs <;> omega

theorem civilFromDays_year_bounds (z : Int) (h0 : -719528 ≤ z) (h1 : z ≤ 2932896) :
    0 ≤ (civilFromDays z).1 ∧ (civilFromDays z).1 ≤ 9999 := by
  have hdoe0 := doeOfDays_nonneg z
  have hdoe1 := doeOfDays_le z
  have hera := eraOfDays_spec z
  have heralo : -1 ≤ eraOfDays z := by unfold eraOfDays; omega
  have herahi : eraOfDays z ≤ 24 := by unfold eraOfDays; omega
  obtain ⟨hy0, hy1, hs0, hs1⟩ := yoeOfDoe_bounds (doeOfDays z) hdoe0 hdoe1
  obtain ⟨hm0, hm1, hp0, hp1⟩ :=
    mpOfDoy_bounds (doeOfDays z - yoeStart (yoeOfDoe (doeOfDays z))) (by omega) (by omega)
  have hysdef : yoeStart (yoeOfDoe (doeOfDays z)) =
      365 * yoeOfDoe (doeOfDays z) + yoeOfDoe (doeOfDays z) / 4 -
        yoeOfDoe (doeOfDays z) / 100 + yoeOfDoe (doeOfDays z) / 400 := rfl
  have hmp2 : 153 * mpOfDoy (doeOfDays z - yoeStart (yoeOfDoe (doeOfDays z))) ≤
      5 * (doeOfDays z - yoeStart (yoeOfDoe (doeOfDays z))) + 2 ∧
      5 * (doeOfDays z - yoeStart (yoeOfDoe (doeOfDays z))) + 2 ≤
      153 * mpOfDoy (doeOfDays z - yoeStart (yoeOfDoe (doeOfDays z))) + 152 := by
    unfold mpOfDoy
    omega
  rcases eq_or_lt_of_le heralo with hbneg | hbpos
  · have ha : 146037 ≤ doeOfDays z := by omega
    have hc : yoeOfDoe (doeOfDays z) = 399 := by omega
    have hys : yoeStart (yoeOfDoe (doeOfDays z)) = 145731 := by omega
    have hmp : 10 ≤ mpOfDoy (doeOfDays z - yoeStart (yoeOfDoe (doeOfDays z))) := by omega
    unfold civilFromDays monthOfMp
    dsimp only
    split_ifs <;> omega
  · rcases eq_or_lt_of_le herahi with hb24 | hblt
    · have ha : doeOfDays z ≤ 146036 := by omega
      have hkey : yoeOfDoe (doeOfDays z) ≤ 398 ∨
          (yoeOfDoe (doeOfDays z) = 399 ∧ yoeStart (yoeOfDoe (doeOfDays z)) = 145731) := by
        omega
      rcases hkey with hc | ⟨hc, hys⟩
      · unfold civilFromDays monthOfMp
        dsimp only
        split_ifs <;> omega
      · have hmp : mpOfDoy (doeOfDays z - yoeStart (yoeOfDoe (doeOfDays z))) ≤ 9 := by omega
        unfold civilFromDays monthOfMp
        dsimp only
        split_ifs <;> omega
    · unfold civilFromDays monthOfMp
      dsimp only
      split_ifs <;> omega

/-- Broken-down time in the style of C `struct tm` (with full year). -/
structure Tm where
  year : Int
  mon : Int
  mday : Int
  hour : Int
  minute : Int
  sec : Int
deriving Repr, DecidableEq

/-- Seconds since the epoch of a broken-down time interpreted in UTC.
Out-of-range fields are normalised by carrying, as `time.mktime` does. -/
def epochOfTm (t : Tm) : Int :=
  daysFromCivil t.year t.mon t.mday * 86400 + t.hour * 3600 + t.minute * 60 + t.sec

/-- Broken-down UTC time of a point in seconds since the epoch. -/
def tmOfEpoch (x : Int) : Tm :=
  let z := x / 86400
  let sod := x % 86400
  let c := civilFromDays z
  ⟨c.1, c.2.1, c.2.2, sod / 3600, sod % 3600 / 60, sod % 60⟩

theorem epochOfTm_tmOfEpoch (x : Int) : epochOfTm (tmOfEpoch x) = x := by
  unfold epochOfTm tmOfEpoch
  dsimp only
  rw [daysFromCivil_civilFromDays]
  omega

/-- All fields of `tmOfEpoch` lie in the ranges rendered with two (resp. for
the year, four) digits, provided the instant lies between year 0 and
year 9999. -/
theorem tmOfEpoch_field_bounds (x : Int)
    (h0 : -62167219200 ≤ x) (h1 : x ≤ 253402300799) :
    0 ≤ (tmOfEpoch x).year ∧ (tmOfEpoch x).year ≤ 9999 ∧
    1 ≤ (tmOfEpoch x).mon ∧ (tmOfEpoch x).mon ≤ 12 ∧
    1 ≤ (tmOfEpoch x).mday ∧ (tmOfEpoch x).mday ≤ 31 ∧
    0 ≤ (tmOfEpoch x).hour ∧ (tmOfEpoch x).hour ≤ 23 ∧
    0 ≤ (tmOfEpoch x).minute ∧ (tmOfEpoch x).minute ≤ 59 ∧
    0 ≤ (tmOfEpoch x).sec ∧ (tmOfEpoch x).sec ≤ 59 := by
  have hzlo : -719528 ≤ x / 86400 := by omega
  have hzhi : x / 86400 ≤ 2932896 := by omega
  obtain ⟨hy0, hy1⟩ := civilFromDays_year_bounds (x / 86400) hzlo hzhi
  obtain ⟨ha, hb, hc, hd⟩ := civilFromDays_month_mday_bounds (x / 86400)
  unfold tmOfEpoch
  dsimp only
  refine ⟨hy0, hy1, ha, hb, hc, hd, ?_, ?_, ?_, ?_, ?_, ?_⟩ <;> omega

/-! ## Digit fields: formatting and parsing -/

/-- The ASCII digit character of `d` (`0 ≤ d ≤ 9`). -/
def digitChar (d : Nat) : Char := Char.ofNat (48 + d)

/-- Numeric value of an ASCII digit character. -/
def digitVal (c : Char) : Option Int :=
  if 48 ≤ c.toNat ∧ c.toNat ≤ 57 then some ((c.toNat : Int) - 48) else none

/-- Zero-padded two-digit rendering (`%m`, `%d`, `%H`, `%M`, `%S`). -/
def pad2 (n : Int) : List Char := [digitChar (n.toNat / 10 % 10), digitChar (n.toNat % 10)]

/-- Zero-padded four-digit rendering (`%Y` for years 0–9999). -/
def pad4 (n : Int) : List Char :=
  [digitChar (n.toNat / 1000 % 10), digitChar (n.toNat / 100 % 10),
    digitChar (n.toNat / 10 % 10), digitChar (n.toNat % 10)]

/-- Exactly two digits. -/
def read2 : List Char → Option (Int × List Char)
  | a :: b :: rest =>
    match digitVal a, digitVal b with
    | some x, some y => some (10 * x + y, rest)
    | _, _ => none
  | _ => none

/-- Exactly four digits (the `%Y` field of `strptime`). -/
def read4 : List Char → Option (Int × List Char)
  | a :: b :: c :: d :: rest =>
    match digitVal a, digitVal b, digitVal c, digitVal d with
    | some x, some y, some z, some w => some (1000 * x + 100 * y + 10 * z + w, rest)
    | _, _, _, _ => none
  | _ => none

/-- A one-or-two-digit numeric field with an admissible range, mirroring the
regular expressions CPython compiles for `%m`, `%d`, `%H`, `%M` and `%S`:
two digits are consumed when they form an in-range value, otherwise a single
in-range digit. -/
def readField (lo hi : Int) : List Char → Option (Int × List Char)
  | a :: b :: rest =>
    match digitVal a, digitVal b with
    | some x, some y =>
      if lo ≤ 10 * x + y ∧ 10 * x + y ≤ hi then some (10 * x + y, rest)
      else if lo ≤ x ∧ x ≤ hi then some (x, b :: rest)
      else none
    | some x, none => if lo ≤ x ∧ x ≤ hi then some (x, b :: rest) else none
    | none, _ => none
  | [a] =>
    match digitVal a with
    | some x => if lo ≤ x ∧ x ≤ hi then some (x, []) else none
    | none => none
  | [] => none

/-- A single expected literal character. -/
def expectChar (c : Char) : List Char → Option (List Char)
  | a :: rest => if a = c then some rest else none
  | [] => none

def isSpaceChar (c : Char) : Bool := c = ' ' || c = '\t' || c = '\n' || c = '\r'

/-- Whitespace in a `strptime` format matches one or more whitespace
characters of the input. -/
def skipSpace : List Char → Option (List Char)
  | a :: rest => if isSpaceChar a then some (rest.dropWhile isSpaceChar) else none
  | [] => none

theorem digitVal_digitChar (d : Nat) (h : d < 10) : digitVal (digitChar d) = some (d : Int) := by
  interval_cases d <;> decide

theorem read2_pad2 (n : Int) (h0 : 0 ≤ n) (h1 : n ≤ 99) (rest : List Char) :
    read2 (pad2 n ++ rest) = some (n, rest) := by
  have ha : n.toNat / 10 % 10 < 10 := Nat.mod_lt _ (by norm_num)
  have hb : n.toNat % 10 < 10 := Nat.mod_lt _ (by norm_num)
  have hval : 10 * ((n.toNat / 10 % 10 : Nat) : Int) + ((n.toNat % 10 : Nat) : Int) = n := by
    omega
  simp only [pad2, List.cons_append, List.nil_append, read2,
    digitVal_digitChar _ ha, digitVal_digitChar _ hb, hval]

theorem read4_pad4 (n : Int) (h0 : 0 ≤ n) (h1 : n ≤ 9999) (rest : List Char) :
    read4 (pad4 n ++ rest) = some (n, rest) := by
  have ha : n.toNat / 1000 % 10 < 10 := Nat.mod_lt _ (by norm_num)
  have hb : n.toNat / 100 % 10 < 10 := Nat.mod_lt _ (by norm_num)
  have hc : n.toNat / 10 % 10 < 10 := Nat.mod_lt _ (by norm_num)
  have hd : n.toNat % 10 < 10 := Nat.mod_lt _ (by norm_num)
  have hval : 1000 * ((n.toNat / 1000 % 10 : Nat) : Int) + 100 * ((n.toNat / 100 % 10 : Nat) : Int)
      + 10 * ((n.toNat / 10 % 10 : Nat) : Int) + ((n.toNat % 10 : Nat) : Int) = n := by
    omega
  simp only [pad4, List.cons_append, List.nil_append, read4,
    digitVal_digitChar _ ha, digitVal_digitChar _ hb, digitVal_digitChar _ hc,
    digitVal_digitChar _ hd, hval]

theorem expectChar_cons (c : Char) (rest : List Char) : expectChar c (c :: rest) = some rest := by
  simp [expectChar]

/-! ## `strftime`, `strptime` and the meaning of ISO-8601 strings -/

/-- `time.strftime("%Y-%m-%dT%H:%M:%SZ", t)` as a character list. -/
def strftimeIsoZChars (t : Tm) : List Char :=
  pad4 t.year ++ ('-' :: (pad2 t.mon ++ ('-' :: (pad2 t.mday ++
    ('T' :: (pad2 t.hour ++ (':' :: (pad2 t.minute ++ (':' :: (pad2 t.sec ++ ['Z']))))))))))

/-- `time.strftime("%Y-%m-%dT%H:%M:%SZ", t)`. -/
def strftimeIsoZ (t : Tm) : String := ⟨strftimeIsoZChars t⟩

/-- `time.strptime(s, "%Y-%m-%d %H:%M:%S")`: a four-digit year, dashes, a
one-or-two-digit month (1–12), day (1–31), one or more whitespace
characters, hour (0–23), colons, minute (0–59) and second (0–61), with
nothing left over; `none` models the `ValueError` raised on any other
input.  Out-of-range combinations such as February 31 are accepted, and
normalised later by `mktime`, exactly as in CPython. -/
def strptimeYmdHms (s : String) : Option Tm := do
  let (y, r1) ← read4 s.data
  let r2 ← expectChar '-' r1
  let (mo, r3) ← readField 1 12 r2
  let r4 ← expectChar '-' r3
  let (d, r5) ← readField 1 31 r4
  let r6 ← skipSpace r5
  let (h, r7) ← readField 0 23 r6
  let r8 ← expectChar ':' r7
  let (mi, r9) ← readField 0 59 r8
  let r10 ← expectChar ':' r9
  let (sec, r11) ← readField 0 61 r10
  if r11 = [] then some ⟨y, mo, d, h, mi, sec⟩ else none

/-- The instant (seconds since the epoch) denoted by a UTC ISO-8601
`YYYY-MM-DDTHH:MM:SSZ` string: the formal meaning of "the string denotes an
instant" in the statements about `timestamp_range`. -/
def parseIsoZ (s : String) : Option Int := do
  let (y, r1) ← read4 s.data
  let r2 ← expectChar '-' r1
  let (mo, r3) ← read2 r2
  let r4 ← expectChar '-' r3
  let (d, r5) ← read2 r4
  let r6 ← expectChar 'T' r5
  let (h, r7) ← read2 r6
  let r8 ← expectChar ':' r7
  let (mi, r9) ← read2 r8
  let r10 ← expectChar ':' r9
  let (sec, r11) ← read2 r10
  let r12 ← expectChar 'Z' r11
  if r12 = [] then some (epochOfTm ⟨y, mo, d, h, mi, sec⟩) else none

/-- Formatting an instant between year 0 and year 9999 and reading the
string back yields the same instant. -/
theorem parseIsoZ_strftimeIsoZ (x : Int)
    (h0 : -62167219200 ≤ x) (h1 : x ≤ 253402300799) :
    parseIsoZ (strftimeIsoZ (tmOfEpoch x)) = some x := by
  obtain ⟨b1, b2, b3, b4, b5, b6, b7, b8, b9, b10, b11, b12⟩ := tmOfEpoch_field_bounds x h0 h1
  have e4 := read4_pad4 (tmOfEpoch x).year b1 (by omega)
  have eMon := read2_pad2 (tmOfEpoch x).mon (by omega) (by omega)
  have eDay := read2_pad2 (tmOfEpoch x).mday (by omega) (by omega)
  have eHour := read2_pad2 (tmOfEpoch x).hour b7 (by omega)
  have eMin := read2_pad2 (tmOfEpoch x).minute b9 (by omega)
  have eSec := read2_pad2 (tmOfEpoch x).sec b11 (by omega)
  unfold parseIsoZ strftimeIsoZ
  simp only [strftimeIsoZChars, e4, eMon, eDay, eHour, eMin, eSec, expectChar_cons,
    Option.bind_eq_bind, Option.some_bind]
  show some (epochOfTm (tmOfEpoch x)) = some x
  rw [epochOfTm_tmOfEpoch]

/-! ## Local time under a fixed offset, and `timestamp_range`

The event timestamp is parsed by `time.strptime`, converted to an epoch
instant by `time.mktime` (which interprets the fields as local time) and
rendered through `time.localtime`.  The local timezone is modelled as a
fixed offset of `tz` seconds east of UTC, with no daylight-saving
transitions; `tz` is carried as an explicit parameter. -/

/-- `time.localtime(x)`: broken-down local time of an epoch instant. -/
def localtime (tz x : Int) : Tm := tmOfEpoch (x + tz)

/-- `int(time.mktime(t))`: the epoch instant whose local broken-down time
is `t` (out-of-range fields are normalised by carrying). -/
def mktime (tz : Int) (t : Tm) : Int := epochOfTm t - tz

/-- `timestamp_range` from the source:

    timestamp = int(time.mktime(time.strptime(timestamp, "%Y-%m-%d %H:%M:%S")))
    timestamp_gte = time.strftime("%Y-%m-%dT%H:%M:%SZ", time.localtime(timestamp - n))
    timestamp_lte = time.strftime("%Y-%m-%dT%H:%M:%SZ", time.localtime(timestamp + n))

`none` models the `ValueError` that `time.strptime` raises on a timestamp
not matching the format. -/
def timestamp_range (tz : Int) (timestamp : String) (n : Int) :
    Option (String × String) :=
  match strptimeYmdHms timestamp with
  | none => none
  | some tm =>
    let t := mktime tz tm
    some (strftimeIsoZ (localtime tz (t - n)), strftimeIsoZ (localtime tz (t + n)))

/-- On a parseable timestamp, `timestamp_range` renders the parsed instant
shifted by `-n` and `+n` seconds; the fixed local offset cancels between
`mktime` and `localtime`. -/
theorem timestamp_range_eq (tz : Int) (s : String) (n : Int) (tm : Tm)
    (hp : strptimeYmdHms s = some tm) :
    timestamp_range tz s n =
      some (strftimeIsoZ (tmOfEpoch (epochOfTm tm - n)),
        strftimeIsoZ (tmOfEpoch (epochOfTm tm + n))) := by
  unfold timestamp_range mktime localtime
  rw [hp]
  have hgte : epochOfTm tm - tz - n + tz = epochOfTm tm - n := by ring
  have hlte : epochOfTm tm - tz + n + tz = epochOfTm tm + n := by ring
  dsimp only
  rw [hgte, hlte]

/-! ## JSON-like values

The model of the Python objects handled by `json.load`, `response.json()`
and the parameter dictionaries.  Python `dict`s are modelled as association
lists in insertion order with unique keys. -/

inductive Json where
  | null
  | bool (b : Bool)
  | num (n : Int)
  | str (s : String)
  | arr (elems : List Json)
  | obj (fields : List (String × Json))
deriving Repr, BEq

/-- Python exceptions relevant to the modelled control flow. -/
inductive PyExc where
  | typeError
  | valueError
  | keyError
deriving Repr, DecidableEq

/-- `params[k] = v` on a `dict` modelled as an association list: replace the
value in place if the key is present, otherwise append the pair. -/
def dictAssign : List (String × Json) → String → Json → List (String × Json)
  | [], k, v => [(k, v)]
  | p :: ps, k, v => if p.1 = k then (k, v) :: ps else p :: dictAssign ps k v

theorem dictAssign_lookup_self (ps : List (String × Json)) (k : String) (v : Json) :
    List.lookup k (dictAssign ps k v) = some v := by
  induction ps with
  | nil => simp [dictAssign, List.lookup]
  | cons p ps ih =>
    simp only [dictAssign]
    split_ifs with h
    · subst h
      simp [List.lookup]
    · have hb : (k == p.1) = false := beq_eq_false_iff_ne.mpr fun hh => h hh.symm
      simp [List.lookup, hb, ih]

theorem dictAssign_lookup_other (ps : List (String × Json)) (k k' : String) (v : Json)
    (hne : k' ≠ k) : List.lookup k' (dictAssign ps k v) = List.lookup k' ps := by
  induction ps with
  | nil => simp [dictAssign, List.lookup, beq_eq_false_iff_ne.mpr hne]
  | cons p ps ih =>
    simp only [dictAssign]
    split_ifs with h
    · subst h
      simp [List.lookup, beq_eq_false_iff_ne.mpr hne]
    · simp only [List.lookup]
      cases hbe : k' == p.1
      · simp [hbe, ih]
      · simp [hbe]

theorem dictAssign_keys_mem (ps : List (String × Json)) (k k' : String) (v : Json) :
    k' ∈ (dictAssign ps k v).map Prod.fst ↔ k' ∈ ps.map Prod.fst ∨ k' = k := by
  induction ps with
  | nil => simp [dictAssign]
  | cons p ps ih =>
    simp only [dictAssign]
    split_ifs with h
    · subst h
      simp only [List.map_cons, List.mem_cons]
      tauto
    · simp only [List.map_cons, List.mem_cons, ih]
      tauto

theorem dictAssign_keys_nodup (ps : List (String × Json)) (k : String) (v : Json)
    (hnd : (ps.map Prod.fst).Nodup) : ((dictAssign ps k v).map Prod.fst).Nodup := by
  induction ps with
  | nil => simp [dictAssign]
  | cons p ps ih =>
    simp only [List.map_cons, List.nodup_cons] at hnd
    simp only [dictAssign]
    split_ifs with h
    · subst h
      simp only [List.map_cons, List.nodup_cons]
      exact hnd
    · simp only [List.map_cons, List.nodup_cons]
      refine ⟨fun hc => ?_, ih hnd.2⟩
      rw [dictAssign_keys_mem] at hc
      rcases hc with hc | hc
      · exact hnd.1 hc
      · exact h hc

/-- One iteration of the loop in `create_params`, for the dictionary entry
`entry = (param_key, translation[param_key])`.  The `try/except KeyError`
of the source catches the lookup failures of `event["timestamp"]` and
`event[translation[param_key]]`; exceptions raised inside `timestamp_range`
(`ValueError` from `strptime` on a malformed timestamp, `TypeError` on a
non-string one) are not `KeyError`s and propagate. -/
def create_params_step (tz : Int) (event : List (String × Json)) (time_range : Int)
    (params : List (String × Json)) (entry : String × String) :
    Except PyExc (List (String × Json)) :=
  if entry.2 = "timestamp_gte" then
    match List.lookup "timestamp" event with
    | none => .ok params
    | some (.str s) =>
      match timestamp_range tz s time_range with
      | none => .error .valueError
      | some r => .ok (dictAssign params entry.1 (.str r.1))
    | some _ => .error .typeError
  else if entry.2 = "timestamp_lte" then
    match List.lookup "timestamp" event with
    | none => .ok params
    | some (.str s) =>
      match timestamp_range tz s time_range with
      | none => .error .valueError
      | some r => .ok (dictAssign params entry.1 (.str r.2))
    | some _ => .error .typeError
  else
    match List.lookup entry.2 event with
    | none => .ok params
    | some v => .ok (dictAssign params entry.1 v)

/-- `create_params(event, translation, time_range)` from the source: fold
the per-entry step over the translation scheme in insertion order, starting
from the empty dictionary. -/
def create_params (tz : Int) (event : List (String × Json))
    (translation : List (String × String)) (time_range : Int) :
    Except PyExc (List (String × Json)) :=
  translation.foldlM (create_params_step tz event time_range) []

/-- The event field a translation entry reads: `"timestamp"` for the two
sentinel markers, otherwise the entry's value itself. -/
def srcField (tv : String) : String :=
  if tv = "timestamp_gte" ∨ tv = "timestamp_lte" then "timestamp" else tv

theorem dictAssign_eq_append (ps : List (String × Json)) (k : String) (v : Json)
    (h : k ∉ ps.map Prod.fst) : dictAssign ps k v = ps ++ [(k, v)] := by
  induction ps with
  | nil => rfl
  | cons p ps ih =>
    simp only [List.map_cons, List.mem_cons] at h
    push_neg at h
    simp only [dictAssign]
    rw [if_neg fun hh => h.1 hh.symm, ih h.2]
    rfl

/-- Every iteration of the `create_params` loop either leaves the parameter
dictionary unchanged, assigns exactly the entry's own key, or raises. -/
theorem create_params_step_shape (tz : Int) (event : List (String × Json)) (n : Int)
    (params : List (String × Json)) (entry : String × String) :
    create_params_step tz event n params entry = .ok params ∨
    (∃ v, create_params_step tz event n params entry = .ok (dictAssign params entry.1 v)) ∨
    (∃ e, create_params_step tz event n params entry = .error e) := by
  unfold create_params_step
  split_ifs
  · rcases hl : List.lookup "timestamp" event with _ | v
    · exact Or.inl rfl
    · rcases v with _ | b | m | s | el | fs
      · exact Or.inr (Or.inr ⟨.typeError, rfl⟩)
      · exact Or.inr (Or.inr ⟨.typeError, rfl⟩)
      · exact Or.inr (Or.inr ⟨.typeError, rfl⟩)
      · dsimp only
        rcases hr : timestamp_range tz s n with _ | r
        · exact Or.inr (Or.inr ⟨.valueError, rfl⟩)
        · exact Or.inr (Or.inl ⟨.str r.1, rfl⟩)
      · exact Or.inr (Or.inr ⟨.typeError, rfl⟩)
      · exact Or.inr (Or.inr ⟨.typeError, rfl⟩)
  · rcases hl : List.lookup "timestamp" event with _ | v
    · exact Or.inl rfl
    · rcases v with _ | b | m | s | el | fs
      · exact Or.inr (Or.inr ⟨.typeError, rfl⟩)
      · exact Or.inr (Or.inr ⟨.typeError, rfl⟩)
      · exact Or.inr (Or.inr ⟨.typeError, rfl⟩)
      · dsimp only
        rcases hr : timestamp_range tz s n with _ | r
        · exact Or.inr (Or.inr ⟨.valueError, rfl⟩)
        · exact Or.inr (Or.inl ⟨.str r.2, rfl⟩)
      · exact Or.inr (Or.inr ⟨.typeError, rfl⟩)
      · exact Or.inr (Or.inr ⟨.typeError, rfl⟩)
  · rcases hl : List.lookup entry.2 event with _ | v
    · exact Or.inl rfl
    · exact Or.inr (Or.inl ⟨v, rfl⟩)

theorem exceptOkBind {ε α β : Type} (a : α) (f : α → Except ε β) :
    (Except.ok a : Except ε α) >>= f = f a := rfl

theorem exceptErrorBind {ε α β : Type} (e : ε) (f : α → Except ε β) :
    (Except.error e : Except ε α) >>= f = Except.error e := rfl

/-- The value a translation entry contributes when every referenced event
field is present and the event's timestamp parses to `tm`. -/
def translatedValue (n : Int) (event : List (String × Json)) (tm : Tm) (tv : String) : Json :=
  if tv = "timestamp_gte" then .str (strftimeIsoZ (tmOfEpoch (epochOfTm tm - n)))
  else if tv = "timestamp_lte" then .str (strftimeIsoZ (tmOfEpoch (epochOfTm tm + n)))
  else (List.lookup tv event).getD .null

theorem lookup_map_snd (g : String → Json) :
    ∀ (l : List (String × String)) (k : String),
      List.lookup k (l.map fun p => (p.1, g p.2)) = (List.lookup k l).map g := by
  intro l
  induction l with
  | nil => intro k; rfl
  | cons p rest ih =>
    intro k
    simp only [List.map_cons, List.lookup]
    cases hbe : k == p.1
    · simp [hbe, ih]
    · simp [hbe]

/-- When the event has a parseable timestamp and every non-sentinel field
referenced by the scheme, the `create_params` loop extends the accumulated
dictionary by exactly one pair per scheme entry, in scheme order. -/
theorem create_params_go_total (tz n : Int) (event : List (String × Json)) (s : String)
    (tm : Tm) (hts : List.lookup "timestamp" event = some (.str s))
    (hp : strptimeYmdHms s = some tm) :
    ∀ (translation : List (String × String)) (params₀ : List (String × Json)),
      (∀ p ∈ translation, p.2 ≠ "timestamp_gte" → p.2 ≠ "timestamp_lte" →
        (List.lookup p.2 event).isSome) →
      (∀ p ∈ translation, p.1 ∉ params₀.map Prod.fst) →
      (translation.map Prod.fst).Nodup →
      List.foldlM (create_params_step tz event n) params₀ translation =
        .ok (params₀ ++ translation.map fun p => (p.1, translatedValue n event tm p.2)) := by
  intro translation
  induction translation with
  | nil =>
    intro params₀ _ _ _
    simp [List.foldlM_nil]
    rfl
  | cons q rest ih =>
    intro params₀ hall hfresh hnd
    simp only [List.map_cons, List.nodup_cons] at hnd
    have hq1 : q.1 ∉ params₀.map Prod.fst := hfresh q (List.mem_cons_self q rest)
    have hall' : ∀ p ∈ rest, p.2 ≠ "timestamp_gte" → p.2 ≠ "timestamp_lte" →
        (List.lookup p.2 event).isSome :=
      fun p hpm => hall p (List.mem_cons_of_mem q hpm)
    have hne : ∀ p ∈ rest, p.1 ≠ q.1 := by
      intro p hpm he
      exact hnd.1 (he ▸ List.mem_map_of_mem Prod.fst hpm)
    have hstep : create_params_step tz event n params₀ q =
        .ok (params₀ ++ [(q.1, translatedValue n event tm q.2)]) := by
      by_cases hg : q.2 = "timestamp_gte"
      · unfold create_params_step
        rw [if_pos hg, hts]
        dsimp only
        rw [timestamp_range_eq tz s n tm hp]
        dsimp only
        rw [dictAssign_eq_append params₀ q.1 _ hq1]
        unfold translatedValue
        rw [if_pos hg]
      · by_cases hl : q.2 = "timestamp_lte"
        · unfold create_params_step
          rw [if_neg hg, if_pos hl, hts]
          dsimp only
          rw [timestamp_range_eq tz s n tm hp]
          dsimp only
          rw [dictAssign_eq_append params₀ q.1 _ hq1]
          unfold translatedValue
          rw [if_neg hg, if_pos hl]
        · obtain ⟨v, hv⟩ := Option.isSome_iff_exists.mp
            (hall q (List.mem_cons_self q rest) hg hl)
          unfold create_params_step
          rw [if_neg hg, if_neg hl, hv]
          dsimp only
          rw [dictAssign_eq_append params₀ q.1 _ hq1]
          unfold translatedValue
          rw [if_neg hg, if_neg hl, hv]
          rfl
    rw [List.foldlM_cons, hstep, exceptOkBind]
    have hfresh' : ∀ p ∈ rest, p.1 ∉
        (params₀ ++ [(q.1, translatedValue n event tm q.2)]).map Prod.fst := by
      intro p hpm
      rw [List.map_append, List.mem_append]
      rintro (hc | hc)
      · exact hfresh p (List.mem_cons_of_mem q hpm) hc
      · simp only [List.map_cons, List.map_nil, List.mem_singleton] at hc
        exact hne p hpm hc
    rw [ih (params₀ ++ [(q.1, translatedValue n event tm q.2)]) hall' hfresh' hnd.2]
    rw [List.append_assoc]
    rfl

/-- The event's timestamp, if it is consulted at all, is a string that
`strptime` accepts. -/
def tsSafe (event : List (String × Json)) : Prop :=
  List.lookup "timestamp" event = none ∨
    ∃ s tm, List.lookup "timestamp" event = some (.str s) ∧ strptimeYmdHms s = some tm

/-- When the timestamp is absent or parseable, the `create_params` loop
never raises, and a key whose entries all reference absent event fields is
never assigned. -/
theorem create_params_go_safe (tz n : Int) (event : List (String × Json)) :
    ∀ (translation : List (String × String)),
      (∀ p ∈ translation, (p.2 = "timestamp_gte" ∨ p.2 = "timestamp_lte") → tsSafe event) →
      ∀ params₀, ∃ R,
        List.foldlM (create_params_step tz event n) params₀ translation = .ok R ∧
        ∀ k', k' ∉ params₀.map Prod.fst →
          (∀ tv, (k', tv) ∈ translation → List.lookup (srcField tv) event = none) →
          k' ∉ R.map Prod.fst := by
  intro translation
  induction translation with
  | nil =>
    intro _ params₀
    exact ⟨params₀, rfl, fun k' hk _ => hk⟩
  | cons q rest ih =>
    intro hsafe params₀
    have hsafe' : ∀ p ∈ rest, (p.2 = "timestamp_gte" ∨ p.2 = "timestamp_lte") →
        tsSafe event := fun p hpm => hsafe p (List.mem_cons_of_mem q hpm)
    -- the step on q either skips or assigns q.1
    have hstep : create_params_step tz event n params₀ q = .ok params₀ ∧
          List.lookup (srcField q.2) event = none ∨
        (∃ v, create_params_step tz event n params₀ q =
          .ok (dictAssign params₀ q.1 v)) ∧ (List.lookup (srcField q.2) event).isSome := by
      by_cases hg : q.2 = "timestamp_gte" ∨ q.2 = "timestamp_lte"
      · have hsf : srcField q.2 = "timestamp" := by unfold srcField; rw [if_pos hg]
        rcases hsafe q (List.mem_cons_self q rest) hg with hnone | ⟨s, tm, hsome, hpar⟩
        · refine Or.inl ⟨?_, by rw [hsf]; exact hnone⟩
          unfold create_params_step
          rcases hg with hg | hg
          · rw [if_pos hg, hnone]
          · rw [if_neg (by rw [hg]; decide), if_pos hg, hnone]
        · refine Or.inr ⟨?_, by rw [hsf, hsome]; rfl⟩
          rcases hg with hg | hg
          · refine ⟨.str (strftimeIsoZ (tmOfEpoch (epochOfTm tm - n))), ?_⟩
            unfold create_params_step
            rw [if_pos hg, hsome]
            dsimp only
            rw [timestamp_range_eq tz s n tm hpar]
          · refine ⟨.str (strftimeIsoZ (tmOfEpoch (epochOfTm tm + n))), ?_⟩
            unfold create_params_step
            rw [if_neg (by rw [hg]; decide), if_pos hg, hsome]
            dsimp only
            rw [timestamp_range_eq tz s n tm hpar]
      · push_neg at hg
        have hsf : srcField q.2 = q.2 := by
          unfold srcField
          rw [if_neg (by push_neg; exact hg)]
        rcases hv : List.lookup q.2 event with _ | v
        · refine Or.inl ⟨?_, by rw [hsf]; exact hv⟩
          unfold create_params_step
          rw [if_neg hg.1, if_neg hg.2, hv]
        · refine Or.inr ⟨⟨v, ?_⟩, by rw [hsf, hv]; rfl⟩
          unfold create_params_step
          rw [if_neg hg.1, if_neg hg.2, hv]
    rcases hstep with ⟨hstep, habs⟩ | ⟨⟨v, hstep⟩, hpres⟩
    · obtain ⟨R, hR, hkeys⟩ := ih hsafe' params₀
      refine ⟨R, ?_, ?_⟩
      · rw [List.foldlM_cons, hstep, exceptOkBind, hR]
      · intro k' hk hfields
        exact hkeys k' hk fun tv htv => hfields tv (List.mem_cons_of_mem q htv)
    · obtain ⟨R, hR, hkeys⟩ := ih hsafe' (dictAssign params₀ q.1 v)
      refine ⟨R, ?_, ?_⟩
      · rw [List.foldlM_cons, hstep, exceptOkBind, hR]
      · intro k' hk hfields
        have hkq : k' ≠ q.1 := by
          intro he
          have := hfields q.2 (by rw [he]; exact List.mem_cons_self q rest)
          rw [this] at hpres
          simp at hpres
        refine hkeys k' ?_ fun tv htv => hfields tv (List.mem_cons_of_mem q htv)
        rw [dictAssign_keys_mem]
        rintro (hc | hc)
        · exact hk hc
        · exact hkq hc

/-- Any successful run of the `create_params` loop produces only keys of the
scheme (or of the initial dictionary), each at most once. -/
theorem create_params_go_keys (tz n : Int) (event : List (String × Json)) :
    ∀ (translation : List (String × String)) (params₀ R : List (String × Json)),
      List.foldlM (create_params_step tz event n) params₀ translation = .ok R →
      (∀ k, k ∈ R.map Prod.fst → k ∈ params₀.map Prod.fst ∨ k ∈ translation.map Prod.fst) ∧
      ((params₀.map Prod.fst).Nodup → (R.map Prod.fst).Nodup) := by
  intro translation
  induction translation with
  | nil =>
    intro params₀ R h
    have hR : params₀ = R := by
      rw [List.foldlM_nil] at h
      exact Except.ok.inj h
    subst hR
    exact ⟨fun k hk => Or.inl hk, fun h => h⟩
  | cons q rest ih =>
    intro params₀ R h
    rw [List.foldlM_cons] at h
    rcases create_params_step_shape tz event n params₀ q with hs | ⟨v, hs⟩ | ⟨e, hs⟩
    · rw [hs, exceptOkBind] at h
      obtain ⟨h1, h2⟩ := ih params₀ R h
      refine ⟨fun k hk => ?_, h2⟩
      rcases h1 k hk with hc | hc
      · exact Or.inl hc
      · exact Or.inr (by simp only [List.map_cons, List.mem_cons]; exact Or.inr hc)
    · rw [hs, exceptOkBind] at h
      obtain ⟨h1, h2⟩ := ih (dictAssign params₀ q.1 v) R h
      constructor
      · intro k hk
        rcases h1 k hk with hc | hc
        · rw [dictAssign_keys_mem] at hc
          rcases hc with hc | hc
          · exact Or.inl hc
          · exact Or.inr (by simp only [List.map_cons, List.mem_cons]; exact Or.inl hc)
        · exact Or.inr (by simp only [List.map_cons, List.mem_cons]; exact Or.inr hc)
      · intro hnd
        exact h2 (dictAssign_keys_nodup params₀ q.1 v hnd)
    · rw [hs, exceptErrorBind] at h
      simp at h

/-- With unique scheme keys, a key determines its entry. -/
theorem nodup_keys_value_unique {l : List (String × String)}
    (hnd : (l.map Prod.fst).Nodup) {k : String} {a b : String}
    (ha : (k, a) ∈ l) (hb : (k, b) ∈ l) : a = b := by
  induction l with
  | nil => cases ha
  | cons p rest ih =>
    simp only [List.map_cons, List.nodup_cons] at hnd
    rcases List.mem_cons.mp ha with ha1 | ha1 <;> rcases List.mem_cons.mp hb with hb1 | hb1
    · have hab := ha1.trans hb1.symm
      injection hab with h1 h2
    · exfalso
      apply hnd.1
      have hp1 : p.1 = k := by rw [← ha1]
      rw [hp1]
      exact List.mem_map_of_mem Prod.fst hb1
    · exfalso
      apply hnd.1
      have hp1 : p.1 = k := by rw [← hb1]
      rw [hp1]
      exact List.mem_map_of_mem Prod.fst ha1
    · exact ih hnd.2 ha1 hb1

/-! ## File-read, HTTP and process-outcome models -/

/-- Outcome of opening and reading `swc_api_key.txt`: an `IOError`, or the
first line of the file. -/
inductive KeyRead where
  | ioError
  | firstLine (l : String)

/-- `load_swc_key()`: on success the stripped first line of the key file;
on `IOError` the process exits with code 1 after printing one message to
standard error. -/
def load_swc_key : KeyRead → Except (Nat × String) String
  | .ioError => .error (1, "\nError: Unable to read key from 'swc_api_key.txt'...\n")
  | .firstLine l => .ok l.trim

/-- Outcome of opening and parsing `event.json`: an `IOError` while opening
or reading, contents that are not valid JSON, or the parsed value. -/
inductive EventRead where
  | ioError
  | badJson
  | parsed (e : List (String × Json))

/-- Observable result of the event-loading block of `main`: the parsed
event, a process exit with a code and the stderr messages printed, or an
uncaught exception. -/
inductive LoadResult where
  | loaded (e : List (String × Json))
  | exited (code : Nat) (stderr : List String)
  | uncaught (exc : PyExc)

/-- The event-loading block of `main`.  `json.load` raises
`json.JSONDecodeError` — a subclass of `ValueError` — on contents that are
not valid JSON; the `except (IOError)` clause does not catch it, so the
exception propagates out of `main` (CPython then terminates with a
traceback and process status 1, not with this block's exit code 2). -/
def loadEvent : EventRead → LoadResult
  | .ioError => .exited 2 ["\nError: Unable to read from 'event.json'...\n"]
  | .badJson => .uncaught .valueError
  | .parsed e => .loaded e

/-- An HTTP response as observed by `query_service`: the status code, the
value of `response.headers.get("Content-Type")` under the case-insensitive
header lookup of `requests` (`none` when the header is absent), and the
result of parsing the body as JSON (`none` when `response.json()` would
raise). -/
structure HttpResponse where
  status : Nat
  contentType : Option String
  jsonBody : Option Json

/-- Outcome of `requests.get`: a `ConnectionError` or a response. -/
inductive ReqOutcome where
  | connError
  | resp (r : HttpResponse)

/-- Observable result of a `query_service` call: the returned `"objects"`
value, a process exit with a code and the stderr messages printed, or an
uncaught exception. -/
inductive QueryResult where
  | ok (objects : Json)
  | exited (code : Nat) (stderr : List String)
  | uncaught (exc : PyExc)

/-- Python's substring test `pat in s`. -/
def containsSubstring (s pat : String) : Bool :=
  s.data.tails.any fun t => pat.data.isPrefixOf t

/-- `query_service(url, parameters)` as a function of the key-file read and
the HTTP outcome, in source order: the key is loaded while building the
headers (exit 1 on `IOError`), the request is made (exit 3 on
`ConnectionError`), the status code is checked (exit 4 when not 200), then
the content type (exit 5 when it does not contain `"application/json"`).
`"application/json" not in response.headers.get("Content-Type")` raises
`TypeError` when the header is absent, and `response.json()["objects"]`
raises `ValueError` on an unparseable body, `KeyError` on a JSON object
without an `"objects"` key, and `TypeError` when the parsed body is not an
object. -/
def query_service (url : String) (key : KeyRead) (req : ReqOutcome) : QueryResult :=
  match load_swc_key key with
  | .error (c, m) => .exited c [m]
  | .ok _ =>
    match req with
    | .connError =>
      .exited 3 ["Error: Unable to connect to the service using '" ++ url ++ " url...\n"]
    | .resp r =>
      if r.status ≠ 200 then
        .exited 4 ["Error: Received not OK status code '" ++ toString r.status ++
          "' from the service...\n"]
      else
        match r.contentType with
        | none => .uncaught .typeError
        | some ct =>
          if ¬ containsSubstring ct "application/json" then
            .exited 5 ["Error: Received not json formatted content '" ++ ct ++
              "' from the service...\n"]
          else
            match r.jsonBody with
            | none => .uncaught .valueError
            | some (.obj fields) =>
              match List.lookup "objects" fields with
              | some v => .ok v
              | none => .uncaught .keyError
            | some _ => .uncaught .typeError

/-! ## Session records and the driver's sort -/

/-- A session record as consumed by the driver and the session presenter,
with the two byte counters already carrying the integer values the driver
obtains via `int(...)`. -/
structure Session where
  start_timestamp_utc : String
  ip : Json
  port : Json
  connected_ip : Json
  connected_port : Json
  protocol : Json
  octets_in : Int
  octets_out : Int
  packets_in : Int
  packets_out : Int

/-- The driver's sort key: `int(x["octets_in"]) + int(x["octets_out"])`. -/
def sessionBytes (s : Session) : Int := s.octets_in + s.octets_out

/-- `sessions.sort(key=lambda x: int(x["octets_in"]) + int(x["octets_out"]),
reverse=True)`: CPython's `list.sort` is stable, and `reverse=True` orders
by descending key while keeping records with equal keys in their original
relative order. -/
def sortSessionsDesc (l : List Session) : List Session :=
  l.mergeSort fun a b => decide (sessionBytes b ≤ sessionBytes a)

/-! ## Driver scenario four: alerts -/

/-- The translation table of the fourth driver scenario (alerts). -/
def alertTranslation : List (String × String) :=
  [("time__gte", "timestamp_gte"), ("time__lte", "timestamp_lte")]

/-- The alert query parameters of the fourth driver scenario:
`create_params(event, translation, 3600 * 24 * 7)` followed by
`params["status"] = "all"`. -/
def alertParams (tz : Int) (event : List (String × Json)) :
    Except PyExc (List (String × Json)) :=
  match create_params tz event alertTranslation (3600 * 24 * 7) with
  | .error e => .error e
  | .ok p => .ok (dictAssign p "status" (Json.str "all"))

/-- Every `strftime "%Y-%m-%dT%H:%M:%SZ"` output ends in `'Z'`. -/
theorem strftimeIsoZ_ends_z (t : Tm) : ∃ pre, (strftimeIsoZ t).data = pre ++ ['Z'] := by
  refine ⟨pad4 t.year ++ '-' :: (pad2 t.mon ++ '-' :: (pad2 t.mday ++
    'T' :: (pad2 t.hour ++ ':' :: (pad2 t.minute ++ ':' :: pad2 t.sec)))), ?_⟩
  unfold strftimeIsoZ strftimeIsoZChars
  simp [List.append_assoc]

/-- Membership of a looked-up pair. -/
theorem lookup_some_mem {l : List (String × String)} {k : String} {v : String}
    (h : List.lookup k l = some v) : (k, v) ∈ l := by
  induction l with
  | nil => cases h
  | cons p rest ih =>
    rw [List.lookup] at h
    cases hbe : k == p.1 <;> rw [hbe] at h
    · exact List.mem_cons_of_mem p (ih h)
    · have hk : k = p.1 := by simpa using hbe
      have hv : p.2 = v := by simpa using h
      rw [List.mem_cons]
      refine Or.inl ?_
      rw [hk, ← hv]

/-! ## The claims -/

/-- C1, counterexample: contents of `event.json` that are not valid JSON do
not produce the event loader's exit code 2 — `json.load`'s
`JSONDecodeError` (a `ValueError`) is not an `IOError`, so it escapes the
`except (IOError)` clause. -/
theorem c1_counterexample :
    loadEvent EventRead.badJson = LoadResult.uncaught PyExc.valueError ∧
    ∀ msgs, loadEvent EventRead.badJson ≠ LoadResult.exited 2 msgs :=
  ⟨rfl, fun _ h => LoadResult.noConfusion h⟩

/-- C1 (amended): the event loader prints its error and exits with code 2
exactly when opening or reading `event.json` raises `IOError`; when the
file is readable but its contents are not valid JSON, the
`JSONDecodeError` (`ValueError`) propagates uncaught instead, so the
process aborts with a traceback (interpreter status 1), not exit code 2. -/
theorem c1_event_loader :
    loadEvent EventRead.ioError =
      LoadResult.exited 2 ["\nError: Unable to read from 'event.json'...\n"] ∧
    loadEvent EventRead.badJson = LoadResult.uncaught PyExc.valueError :=
  ⟨rfl, rfl⟩

/-- C2: the five failure classes terminate the process with the distinct
nonzero exit codes 1 (key file unreadable), 2 (event file unreadable),
3 (connection failure), 4 (non-200 status) and 5 (non-JSON content type);
in particular every response with a status code other than 200 exits with
code 4 after printing exactly one error line. -/
theorem c2_exit_codes :
    (load_swc_key KeyRead.ioError =
      Except.error (1, "\nError: Unable to read key from 'swc_api_key.txt'...\n")) ∧
    (loadEvent EventRead.ioError =
      LoadResult.exited 2 ["\nError: Unable to read from 'event.json'...\n"]) ∧
    (∀ url l, query_service url (KeyRead.firstLine l) ReqOutcome.connError =
      QueryResult.exited 3
        ["Error: Unable to connect to the service using '" ++ url ++ " url...\n"]) ∧
    (∀ url l r, r.status ≠ 200 →
      query_service url (KeyRead.firstLine l) (ReqOutcome.resp r) =
        QueryResult.exited 4 ["Error: Received not OK status code '" ++ toString r.status ++
          "' from the service...\n"]) ∧
    (∀ url l r ct, r.status = 200 → r.contentType = some ct →
      containsSubstring ct "application/json" = false →
      query_service url (KeyRead.firstLine l) (ReqOutcome.resp r) =
        QueryResult.exited 5 ["Error: Received not json formatted content '" ++ ct ++
          "' from the service...\n"]) ∧
    ([1, 2, 3, 4, 5] : List Nat).Nodup := by
  refine ⟨rfl, rfl, fun url l => rfl, fun url l r h => ?_, fun url l r ct h200 hct hsub => ?_,
    by decide⟩
  · unfold query_service load_swc_key
    dsimp only
    rw [if_pos h]
  · unfold query_service load_swc_key
    dsimp only
    rw [if_neg (fun hne => hne h200), hct]
    dsimp only
    rw [if_pos (by simp [hsub])]

/-- C2, witness: a 404 response exits with code 4 and one error line; a 200
response with `text/html` content exits with code 5. -/
theorem c2_witness :
    query_service "u" (KeyRead.firstLine "k")
        (ReqOutcome.resp ⟨404, some "text/html", none⟩) =
      QueryResult.exited 4
        ["Error: Received not OK status code '404' from the service...\n"] ∧
    query_service "u" (KeyRead.firstLine "k")
        (ReqOutcome.resp ⟨200, some "text/html", none⟩) =
      QueryResult.exited 5
        ["Error: Received not json formatted content 'text/html' from the service...\n"] := by
  constructor
  · exact c2_exit_codes.2.2.2.1 "u" "k" ⟨404, some "text/html", none⟩ (by decide)
  · exact c2_exit_codes.2.2.2.2.1 "u" "k" ⟨200, some "text/html", none⟩ "text/html"
      rfl rfl (by decide)

/-- C3: on an event that contains every field referenced by the scheme and
a parseable timestamp, `create_params` returns a dictionary whose keys are
exactly the scheme's output keys, where the two time-boundary keys hold the
event instant shifted by `-n` and `+n` seconds rendered as ISO-8601 `...Z`
strings and every other key holds the value of its named event field. -/
theorem c3_create_params_total (tz n : Int) (event : List (String × Json))
    (translation : List (String × String)) (s : String) (tm : Tm)
    (hnd : (translation.map Prod.fst).Nodup)
    (hts : List.lookup "timestamp" event = some (.str s))
    (hp : strptimeYmdHms s = some tm)
    (hall : ∀ p ∈ translation, p.2 ≠ "timestamp_gte" → p.2 ≠ "timestamp_lte" →
      (List.lookup p.2 event).isSome) :
    ∃ R, create_params tz event translation n = .ok R ∧
      R.map Prod.fst = translation.map Prod.fst ∧
      ∀ k tv, List.lookup k translation = some tv →
        (tv = "timestamp_gte" →
          List.lookup k R = some (.str (strftimeIsoZ (tmOfEpoch (epochOfTm tm - n))))) ∧
        (tv = "timestamp_lte" →
          List.lookup k R = some (.str (strftimeIsoZ (tmOfEpoch (epochOfTm tm + n))))) ∧
        (tv ≠ "timestamp_gte" → tv ≠ "timestamp_lte" →
          List.lookup k R = List.lookup tv event) := by
  refine ⟨translation.map fun p => (p.1, translatedValue n event tm p.2), ?_, ?_, ?_⟩
  · unfold create_params
    rw [create_params_go_total tz n event s tm hts hp translation [] hall (by simp) hnd]
    rfl
  · rw [List.map_map]
    rfl
  · intro k tv hktv
    rw [lookup_map_snd (translatedValue n event tm) translation k, hktv, Option.map_some']
    refine ⟨fun hg => ?_, fun hl => ?_, fun hg hl => ?_⟩
    · subst hg
      simp [translatedValue]
    · subst hl
      simp [translatedValue]
    · obtain ⟨v, hv⟩ := Option.isSome_iff_exists.mp (hall (k, tv) (lookup_some_mem hktv) hg hl)
      simp [translatedValue, hg, hl, hv]

/-- A concrete event and scheme for the witnesses. -/
def eventC : List (String × Json) :=
  [("timestamp", Json.str "2021-01-01 00:00:00"), ("src_ip", Json.str "10.0.0.1")]

/-- A concrete translation scheme (the one of driver scenario three). -/
def translationC : List (String × String) :=
  [("ip", "src_ip"), ("start_timestamp_utc__gte", "timestamp_gte"),
    ("start_timestamp_utc__lte", "timestamp_lte")]

/-- C3, witness at a concrete event, scheme and half-width. -/
theorem c3_witness :
    ∃ R, create_params 0 eventC translationC 30 = .ok R ∧
      R.map Prod.fst = translationC.map Prod.fst ∧
      ∀ k tv, List.lookup k translationC = some tv →
        (tv = "timestamp_gte" →
          List.lookup k R = some (.str (strftimeIsoZ (tmOfEpoch
            (epochOfTm ⟨2021, 1, 1, 0, 0, 0⟩ - 30))))) ∧
        (tv = "timestamp_lte" →
          List.lookup k R = some (.str (strftimeIsoZ (tmOfEpoch
            (epochOfTm ⟨2021, 1, 1, 0, 0, 0⟩ + 30))))) ∧
        (tv ≠ "timestamp_gte" → tv ≠ "timestamp_lte" →
          List.lookup k R = List.lookup tv eventC) :=
  c3_create_params_total 0 30 eventC translationC "2021-01-01 00:00:00" ⟨2021, 1, 1, 0, 0, 0⟩
    (by decide) rfl rfl (by decide)

/-- C4, counterexample: the scheme entry `("b", "x")` references the field
`"x"`, which is absent from the event — yet `create_params` does not return
normally, because the other entry feeds the unparseable timestamp `"bad"`
into `strptime`, whose `ValueError` is not caught by `except KeyError`. -/
theorem c4_counterexample :
    List.lookup "x" [("timestamp", Json.str "bad")] = none ∧
    create_params 0 [("timestamp", Json.str "bad")]
      [("a", "timestamp_gte"), ("b", "x")] 5 = .error PyExc.valueError ∧
    ∀ R, create_params 0 [("timestamp", Json.str "bad")]
      [("a", "timestamp_gte"), ("b", "x")] 5 ≠ .ok R :=
  ⟨rfl, rfl, fun _ h => Except.noConfusion h⟩

/-- C4 (amended): provided every sentinel entry of the scheme finds either
no `"timestamp"` field or a parseable timestamp string (so that no
exception escapes the per-entry `except KeyError`), `create_params`
returns normally, and each scheme entry whose referenced event field is
absent leaves its output key absent from the result. -/
theorem c4_missing_fields_skipped (tz n : Int) (event : List (String × Json))
    (translation : List (String × String))
    (hnd : (translation.map Prod.fst).Nodup)
    (hsafe : ∀ p ∈ translation, (p.2 = "timestamp_gte" ∨ p.2 = "timestamp_lte") →
      tsSafe event) :
    ∃ R, create_params tz event translation n = .ok R ∧
      ∀ k tv, (k, tv) ∈ translation → List.lookup (srcField tv) event = none →
        k ∉ R.map Prod.fst := by
  obtain ⟨R, hR, hkeys⟩ := create_params_go_safe tz n event translation hsafe []
  refine ⟨R, hR, ?_⟩
  intro k tv hmem habs
  refine hkeys k (by simp) ?_
  intro tv' htv'
  rw [nodup_keys_value_unique hnd htv' hmem]
  exact habs

/-- C4, witness: with a parseable timestamp and the field `"x"` absent, the
call returns normally and the key `"b"` is absent from the result. -/
theorem c4_witness :
    ∃ R, create_params 0 [("timestamp", Json.str "2021-01-01 00:00:00")]
        [("a", "timestamp_gte"), ("b", "x")] 5 = .ok R ∧
      ∀ k tv, (k, tv) ∈ [("a", "timestamp_gte"), ("b", "x")] →
        List.lookup (srcField tv) [("timestamp", Json.str "2021-01-01 00:00:00")] = none →
        k ∉ R.map Prod.fst :=
  c4_missing_fields_skipped 0 5 [("timestamp", Json.str "2021-01-01 00:00:00")]
    [("a", "timestamp_gte"), ("b", "x")] (by decide)
    (fun _ _ _ => Or.inr ⟨"2021-01-01 00:00:00", ⟨2021, 1, 1, 0, 0, 0⟩, rfl, rfl⟩)

/-- C5: `timestamp_range("2021-01-01 00:00:00", 5)` yields a pair of
strings denoting instants 10 seconds apart, each ending in `'Z'`; and in
general, for every parseable timestamp and every `n` (with both shifted
instants inside the four-digit-year range), the two returned strings
denote instants exactly `2 * n` seconds apart. -/
theorem c5_timestamp_range :
    (∀ tz : Int, ∃ g l, timestamp_range tz "2021-01-01 00:00:00" 5 = some (g, l) ∧
      ∃ a b, parseIsoZ g = some a ∧ parseIsoZ l = some b ∧ b - a = 10 ∧
        (∃ pre, g.data = pre ++ ['Z']) ∧ (∃ pre, l.data = pre ++ ['Z'])) ∧
    (∀ (tz : Int) (s : String) (n : Int) (tm : Tm), strptimeYmdHms s = some tm →
      -62167219200 ≤ epochOfTm tm - n → epochOfTm tm - n ≤ 253402300799 →
      -62167219200 ≤ epochOfTm tm + n → epochOfTm tm + n ≤ 253402300799 →
      ∃ g l, timestamp_range tz s n = some (g, l) ∧
        parseIsoZ g = some (epochOfTm tm - n) ∧
        parseIsoZ l = some (epochOfTm tm + n) ∧
        (epochOfTm tm + n) - (epochOfTm tm - n) = 2 * n ∧
        (∃ pre, g.data = pre ++ ['Z']) ∧ (∃ pre, l.data = pre ++ ['Z'])) := by
  have hgen : ∀ (tz : Int) (s : String) (n : Int) (tm : Tm), strptimeYmdHms s = some tm →
      -62167219200 ≤ epochOfTm tm - n → epochOfTm tm - n ≤ 253402300799 →
      -62167219200 ≤ epochOfTm tm + n → epochOfTm tm + n ≤ 253402300799 →
      ∃ g l, timestamp_range tz s n = some (g, l) ∧
        parseIsoZ g = some (epochOfTm tm - n) ∧
        parseIsoZ l = some (epochOfTm tm + n) ∧
        (epochOfTm tm + n) - (epochOfTm tm - n) = 2 * n ∧
        (∃ pre, g.data = pre ++ ['Z']) ∧ (∃ pre, l.data = pre ++ ['Z']) := by
    intro tz s n tm hp hg0 hg1 hl0 hl1
    refine ⟨strftimeIsoZ (tmOfEpoch (epochOfTm tm - n)),
      strftimeIsoZ (tmOfEpoch (epochOfTm tm + n)),
      timestamp_range_eq tz s n tm hp,
      parseIsoZ_strftimeIsoZ _ hg0 hg1,
      parseIsoZ_strftimeIsoZ _ hl0 hl1,
      by ring,
      strftimeIsoZ_ends_z _,
      strftimeIsoZ_ends_z _⟩
  refine ⟨fun tz => ?_, hgen⟩
  obtain ⟨g, l, h1, h2, h3, _, h5, h6⟩ :=
    hgen tz "2021-01-01 00:00:00" 5 ⟨2021, 1, 1, 0, 0, 0⟩ rfl
      (by decide) (by decide) (by decide) (by decide)
  exact ⟨g, l, h1, epochOfTm ⟨2021, 1, 1, 0, 0, 0⟩ - 5, epochOfTm ⟨2021, 1, 1, 0, 0, 0⟩ + 5,
    h2, h3, by ring, h5, h6⟩

/-- C5, witness: the concrete pair and the instants it denotes. -/
theorem c5_witness :
    ∃ g l, timestamp_range 0 "2021-01-01 00:00:00" 5 = some (g, l) ∧
      parseIsoZ g = some 1609459195 ∧ parseIsoZ l = some 1609459205 := by
  obtain ⟨g, l, h1, h2, h3, _, _, _⟩ :=
    c5_timestamp_range.2 0 "2021-01-01 00:00:00" 5 ⟨2021, 1, 1, 0, 0, 0⟩ rfl
      (by decide) (by decide) (by decide) (by decide)
  exact ⟨g, l, h1, h2, h3⟩

/-- C6: the driver's session sort is a permutation, pairwise descending by
`octets_in + octets_out`, stable (records with equal totals keep their
original relative order, stated as: filtering by any total value commutes
with sorting), and truncation `[:5]` keeps five records, each of whose
totals is at least the total of every record it drops. -/
theorem c6_sort_stable_desc (l : List Session) :
    (sortSessionsDesc l).Pairwise (fun a b => sessionBytes b ≤ sessionBytes a) ∧
    List.Perm (sortSessionsDesc l) l ∧
    (∀ c : Int, (sortSessionsDesc l).filter (fun x => sessionBytes x == c) =
      l.filter fun x => sessionBytes x == c) ∧
    (5 ≤ l.length → ((sortSessionsDesc l).take 5).length = 5) ∧
    (∀ x ∈ (sortSessionsDesc l).take 5, ∀ y ∈ (sortSessionsDesc l).drop 5,
      sessionBytes y ≤ sessionBytes x) := by
  have htrans : ∀ a b c : Session, decide (sessionBytes b ≤ sessionBytes a) →
      decide (sessionBytes c ≤ sessionBytes b) →
      decide (sessionBytes c ≤ sessionBytes a) = true := by
    intro a b c h1 h2
    simp only [decide_eq_true_iff] at h1 h2 ⊢
    omega
  have htotal : ∀ a b : Session, decide (sessionBytes b ≤ sessionBytes a) ||
      decide (sessionBytes a ≤ sessionBytes b) := by
    intro a b
    simp only [Bool.or_eq_true, decide_eq_true_iff]
    omega
  have hsorted := List.sorted_mergeSort htrans htotal l
  have hsorted' : (sortSessionsDesc l).Pairwise
      fun a b => sessionBytes b ≤ sessionBytes a := by
    refine hsorted.imp ?_
    intro a b h
    simpa using h
  have hperm : List.Perm (sortSessionsDesc l) l := List.mergeSort_perm l _
  refine ⟨hsorted', hperm, ?_, ?_, ?_⟩
  · intro c
    have hfsub : List.Sublist (l.filter fun x => sessionBytes x == c) (sortSessionsDesc l) := by
      refine List.sublist_mergeSort htrans htotal ?_ (List.filter_sublist l)
      refine List.pairwise_of_forall_mem_list ?_
      intro a ha b hb
      have ha' := (List.mem_filter.mp ha).2
      have hb' := (List.mem_filter.mp hb).2
      simp only [beq_iff_eq] at ha' hb'
      simp only [decide_eq_true_iff, ha', hb']
      omega
    have hsub2 : List.Sublist (l.filter fun x => sessionBytes x == c)
        ((sortSessionsDesc l).filter fun x => sessionBytes x == c) := by
      have := hfsub.filter fun x => sessionBytes x == c
      rwa [List.filter_eq_self.mpr (fun a ha => (List.mem_filter.mp ha).2)] at this
    have hlen : ((sortSessionsDesc l).filter fun x => sessionBytes x == c).length =
        (l.filter fun x => sessionBytes x == c).length :=
      (hperm.filter _).length_eq
    exact (hsub2.eq_of_length hlen.symm).symm
  · intro h5
    have hlen : (sortSessionsDesc l).length = l.length := hperm.length_eq
    rw [List.length_take, min_eq_left (by omega)]
  · intro x hx y hy
    have hsplit := hsorted'
    rw [← List.take_append_drop 5 (sortSessionsDesc l)] at hsplit
    exact (List.pairwise_append.mp hsplit).2.2 x hx y hy

/-- A session record with the given byte counters and trivial other
fields. -/
def mkSession (oin oout : Int) : Session :=
  ⟨"", .null, .null, .null, .null, .null, oin, oout, 0, 0⟩

/-- C6, witness: on a concrete six-record list, truncation after sorting
keeps exactly five records. -/
theorem c6_witness :
    ((sortSessionsDesc [mkSession 1 2, mkSession 5 0, mkSession 3 0, mkSession 1 1,
      mkSession 9 9, mkSession 0 0]).take 5).length = 5 :=
  (c6_sort_stable_desc [mkSession 1 2, mkSession 5 0, mkSession 3 0, mkSession 1 1,
    mkSession 9 9, mkSession 0 0]).2.2.2.1 (by decide)

/-- C7, counterexample: a 404 response whose `Content-Type` is
`text/html` — present and not containing `"application/json"` — does not
take the content-type error path: the status check fires first and the
process exits with code 4, not 5. -/
theorem c7_counterexample :
    (⟨404, some "text/html", none⟩ : HttpResponse).contentType = some "text/html" ∧
    containsSubstring "text/html" "application/json" = false ∧
    query_service "u" (KeyRead.firstLine "k")
        (ReqOutcome.resp ⟨404, some "text/html", none⟩) =
      QueryResult.exited 4
        ["Error: Received not OK status code '404' from the service...\n"] ∧
    ∀ msgs, query_service "u" (KeyRead.firstLine "k")
        (ReqOutcome.resp ⟨404, some "text/html", none⟩) ≠ QueryResult.exited 5 msgs := by
  refine ⟨rfl, by decide, rfl, ?_⟩
  intro msgs h
  rw [show query_service "u" (KeyRead.firstLine "k")
      (ReqOutcome.resp ⟨404, some "text/html", none⟩) =
      QueryResult.exited 4
        ["Error: Received not OK status code '404' from the service...\n"] from rfl] at h
  injection h with h1 h2
  omega

/-- C7 (amended): for every 200 response whose `Content-Type` header is
present and does not contain `"application/json"`, `query_service` prints
the content-type error line and exits with code 5, and its result does not
depend on the response body — the body is never parsed as JSON. -/
theorem c7_content_type (url key : String) (r : HttpResponse) (ct : String)
    (h200 : r.status = 200) (hct : r.contentType = some ct)
    (hsub : containsSubstring ct "application/json" = false) :
    query_service url (KeyRead.firstLine key) (ReqOutcome.resp r) =
      QueryResult.exited 5 ["Error: Received not json formatted content '" ++ ct ++
        "' from the service...\n"] ∧
    ∀ b b', query_service url (KeyRead.firstLine key)
        (ReqOutcome.resp ⟨r.status, r.contentType, b⟩) =
      query_service url (KeyRead.firstLine key)
        (ReqOutcome.resp ⟨r.status, r.contentType, b'⟩) := by
  have hgen : ∀ b : Option Json, query_service url (KeyRead.firstLine key)
      (ReqOutcome.resp ⟨r.status, r.contentType, b⟩) =
      QueryResult.exited 5 ["Error: Received not json formatted content '" ++ ct ++
        "' from the service...\n"] := by
    intro b
    unfold query_service load_swc_key
    dsimp only
    rw [if_neg (fun hne => hne h200), hct]
    dsimp only
    rw [if_pos (by simp [hsub])]
  constructor
  · have := hgen r.jsonBody
    exact this
  · intro b b'
    rw [hgen b, hgen b']

/-- C7, witness: a concrete 200 response with `text/html` content type
exits with code 5. -/
theorem c7_witness :
    query_service "u" (KeyRead.firstLine "k")
        (ReqOutcome.resp ⟨200, some "text/html", some Json.null⟩) =
      QueryResult.exited 5
        ["Error: Received not json formatted content 'text/html' from the service...\n"] :=
  (c7_content_type "u" "k" ⟨200, some "text/html", some Json.null⟩ "text/html"
    rfl rfl (by decide)).1

/-- C8: in the fourth driver scenario, for every event with a parseable
timestamp the alert parameters are exactly the two time boundaries at the
event instant shifted by `±(3600 * 24 * 7)` seconds — seven days — plus
`"status" = "all"`. -/
theorem c8_alert_scenario (tz : Int) (event : List (String × Json)) (s : String) (tm : Tm)
    (hts : List.lookup "timestamp" event = some (.str s))
    (hp : strptimeYmdHms s = some tm) :
    alertParams tz event = .ok
      [("time__gte", .str (strftimeIsoZ (tmOfEpoch (epochOfTm tm - 3600 * 24 * 7)))),
        ("time__lte", .str (strftimeIsoZ (tmOfEpoch (epochOfTm tm + 3600 * 24 * 7)))),
        ("status", .str "all")] ∧
    (3600 * 24 * 7 : Int) = 604800 := by
  have hall : ∀ p ∈ alertTranslation, p.2 ≠ "timestamp_gte" → p.2 ≠ "timestamp_lte" →
      (List.lookup p.2 event).isSome := by
    intro p hpm hg hl
    rcases List.mem_cons.mp hpm with h | h
    · exact absurd (by rw [h]) hg
    · rcases List.mem_cons.mp h with h2 | h2
      · exact absurd (by rw [h2]) hl
      · cases h2
  have hmain := create_params_go_total tz (3600 * 24 * 7) event s tm hts hp
    alertTranslation [] hall (by simp) (by decide)
  constructor
  · unfold alertParams create_params
    rw [hmain]
    dsimp only
    simp only [alertTranslation, List.map_cons, List.map_nil, List.nil_append,
      translatedValue]
    norm_num
    rfl
  · norm_num

/-- C8, witness: the concrete alert parameters of an event dated
2021-01-01 00:00:00. -/
theorem c8_witness :
    alertParams 0 [("timestamp", Json.str "2021-01-01 00:00:00")] = .ok
      [("time__gte", .str (strftimeIsoZ (tmOfEpoch
        (epochOfTm ⟨2021, 1, 1, 0, 0, 0⟩ - 3600 * 24 * 7)))),
        ("time__lte", .str (strftimeIsoZ (tmOfEpoch
          (epochOfTm ⟨2021, 1, 1, 0, 0, 0⟩ + 3600 * 24 * 7)))),
        ("status", .str "all")] :=
  (c8_alert_scenario 0 [("timestamp", Json.str "2021-01-01 00:00:00")]
    "2021-01-01 00:00:00" ⟨2021, 1, 1, 0, 0, 0⟩ rfl rfl).1

/-- C9: a 200 response carrying no `Content-Type` header at all makes the
membership test `"application/json" not in None` raise an uncaught
`TypeError`; `query_service` neither reaches the content-type error path
nor exits with code 5. -/
theorem c9_missing_content_type (url key : String) (b : Option Json) :
    query_service url (KeyRead.firstLine key) (ReqOutcome.resp ⟨200, none, b⟩) =
      QueryResult.uncaught PyExc.typeError ∧
    ∀ msgs, query_service url (KeyRead.firstLine key) (ReqOutcome.resp ⟨200, none, b⟩) ≠
      QueryResult.exited 5 msgs := by
  have h : query_service url (KeyRead.firstLine key) (ReqOutcome.resp ⟨200, none, b⟩) =
      QueryResult.uncaught PyExc.typeError := by
    unfold query_service load_swc_key
    dsimp only
    rw [if_neg (fun hne => hne rfl)]
  refine ⟨h, fun msgs hc => ?_⟩
  rw [h] at hc
  exact QueryResult.noConfusion hc

/-- C9, witness: the concrete headerless 200 response. -/
theorem c9_witness :
    query_service "u" (KeyRead.firstLine "k") (ReqOutcome.resp ⟨200, none, none⟩) =
      QueryResult.uncaught PyExc.typeError :=
  (c9_missing_content_type "u" "k" none).1

/-- C10: whenever `create_params` returns normally, every key of the result
is a key of the translation scheme — no parameter name is invented — and no
key occurs twice. -/
theorem c10_keys_subset (tz n : Int) (event : List (String × Json))
    (translation : List (String × String)) (R : List (String × Json))
    (h : create_params tz event translation n = .ok R) :
    (∀ k ∈ R.map Prod.fst, k ∈ translation.map Prod.fst) ∧ (R.map Prod.fst).Nodup := by
  obtain ⟨h1, h2⟩ := create_params_go_keys tz n event translation [] R h
  refine ⟨fun k hk => ?_, h2 (by simp)⟩
  rcases h1 k hk with hc | hc
  · simp at hc
  · exact hc

/-- C10, witness: the concrete run of scenario three's scheme. -/
theorem c10_witness :
    (∀ k ∈ [("ip", Json.str "10.0.0.1"),
        ("start_timestamp_utc__gte", Json.str "2020-12-31T23:59:30Z"),
        ("start_timestamp_utc__lte", Json.str "2021-01-01T00:00:30Z")].map Prod.fst,
      k ∈ translationC.map Prod.fst) ∧
    (([("ip", Json.str "10.0.0.1"),
        ("start_timestamp_utc__gte", Json.str "2020-12-31T23:59:30Z"),
        ("start_timestamp_utc__lte", Json.str "2021-01-01T00:00:30Z")].map
          (Prod.fst (α := String) (β := Json))).Nodup) :=
  c10_keys_subset 0 30 eventC translationC _ rfl

end Swc
